import Mathlib

/-!
Verification of the PathoAI case-workspace controller (Next.js dashboard,
`app/page.tsx` and `lib/api.ts`).

The controller state (case list, selected case, analysis result, acknowledged
regions, search/filter inputs) is embedded as a Lean structure, and each user
operation (select, analyze, acknowledge region, verify, export, edit, delete)
is embedded as a pure state-transition function.  Remote calls are modelled by
oracle parameters carrying the response the backend would return (`none` for a
failed call).  The `useEffect` that re-fetches billing detail whenever the
selected case changes is folded into each transition that replaces the selected
case, matching the single-threaded event-loop semantics of the app.
-/

/-! ## String helpers: embeddings of the JavaScript string operations used -/

/-- Embedding of JavaScript `String.prototype.trim`: drop whitespace from both
ends. -/
def jsTrim (s : String) : String :=
  String.mk (((s.data.dropWhile Char.isWhitespace).reverse.dropWhile Char.isWhitespace).reverse)

/-- ASCII lower-casing of one character (embedding of `toLowerCase` on the
ASCII range used by the dashboard data). -/
def lowerChar (c : Char) : Char :=
  if 65 ≤ c.toNat ∧ c.toNat ≤ 90 then Char.ofNat (c.toNat + 32) else c

/-- Embedding of JavaScript `String.prototype.toLowerCase`. -/
def lowerStr (s : String) : String := String.mk (s.data.map lowerChar)

/-- Character-list test: the first list is an initial segment of the second. -/
def strLeadsAux : List Char → List Char → Bool
  | [], _ => true
  | _ :: _, [] => false
  | a :: as, b :: bs => a == b && strLeadsAux as bs

/-- Character-list substring test used by `strHasSub`. -/
def hasSubAux (pat : List Char) : List Char → Bool
  | [] => pat.isEmpty
  | b :: bs => strLeadsAux pat (b :: bs) || hasSubAux pat bs

/-- Embedding of JavaScript `String.prototype.includes`: the second string
occurs as a contiguous substring of the first. -/
def strHasSub (s pat : String) : Bool := hasSubAux pat.data s.data

/-- String starts-with test (used to compare request URLs to a base URL). -/
def strStarts (s pre : String) : Bool := strLeadsAux pre.data s.data

/-- JavaScript truthiness of an optional string (`null`/`undefined`/`""` are
falsy). -/
def strTruthy : Option String → Bool
  | some s => !(s == "")
  | none => false

/-- Embedding of JavaScript `a || d` for an optional string `a` and string
default `d`. -/
def strOr (o : Option String) (d : String) : String :=
  match o with
  | some s => if s == "" then d else s
  | none => d

/-- Embedding of JavaScript `a || d` for an optional number `a` (note that `0`
is falsy in JavaScript, so `some 0` falls back to the default). -/
def numOr (o : Option ℚ) (d : ℚ) : ℚ :=
  match o with
  | some x => if x == 0 then d else x
  | none => d

/-- Embedding of JavaScript `a || []` for an optional array `a`. -/
def listOr {α : Type} (o : Option (List α)) : List α := o.getD []

/-! ## Data model (from `lib/api.ts`) -/

/-- Lifecycle status of a case (`Case.status` in `lib/api.ts`). -/
inductive Status
  | PENDING
  | ANALYZED
  | VERIFIED
  | EXPORTED
deriving DecidableEq

/-- Position of a status in the forward lifecycle order
PENDING, ANALYZED, VERIFIED, EXPORTED. -/
def statusRank : Status → ℕ
  | .PENDING => 0
  | .ANALYZED => 1
  | .VERIFIED => 2
  | .EXPORTED => 3

/-- The `Case` record of `lib/api.ts`. -/
structure Case where
  id : ℕ
  patient_id : String
  patient_name : String
  slide_id : String
  diagnosis : String
  status : Status
  image_url : String
  base_cpt : String
  suggested_cpt : Option String
  recovery_value : ℚ
  confidence_score : ℚ
  created_at : String
deriving DecidableEq

/-- The `AnnotatedRegion` record of `lib/api.ts`. -/
structure AnnotatedRegion where
  id : ℕ
  x : ℚ
  y : ℚ
  width : ℚ
  height : ℚ
  label : String
  description : String
  cpt_impact : String
  billable : Bool
deriving DecidableEq

/-- The nested `cpt_codes` object of `BillingAnalysis` in `lib/api.ts`. -/
structure CptCodes where
  base : String
  recommended : String
  ai_assisted : String
  ancillary : List String
deriving DecidableEq

/-- The `BillingAnalysis` record of `lib/api.ts`. -/
structure BillingAnalysis where
  slide_id : String
  base_cpt : String
  recommended_cpt : String
  revenue_delta : ℚ
  base_reimbursement : ℚ
  optimized_reimbursement : ℚ
  cpt_codes : CptCodes
  audit_narrative : String
  complexity_indicators : List String
  confidence_score : ℚ
  audit_defense_score : ℚ
  model_used : String
  annotated_regions : List AnnotatedRegion
deriving DecidableEq

/-- The JSON body returned by the case-detail endpoint as consumed by
`loadCaseBillingData` in `app/page.tsx` (fields that may be absent or `null`
are optional). -/
structure DetailResp where
  slide_id : String
  base_cpt_code : Option String
  suggested_cpt_code : Option String
  recovery_value : Option ℚ
  base_reimbursement : Option ℚ
  optimized_reimbursement : Option ℚ
  ai_assisted_code : Option String
  ancillary_codes : Option (List String)
  justification_text : Option String
  complexity_indicators : Option (List String)
  confidence_score : Option ℚ
  audit_defense_score : Option ℚ
  annotated_regions : Option (List AnnotatedRegion)
deriving DecidableEq

/-- The `DocumentRequest` record of `lib/api.ts` (payload of the verification
call). -/
structure DocumentRequest where
  slide_id : String
  pathologist_name : String
  verified_cpt_codes : List String
  complexity_indicators_clicked : List String
  billing_data : Option BillingAnalysis
deriving DecidableEq

/-! ## Filtering (the filter `useEffect` of `app/page.tsx`, lines 134-154) -/

/-- The search predicate of the filter effect: the lower-cased query occurs in
the lower-cased patient name, slide id, patient id, or diagnosis.  `query` is
already lower-cased by the caller, as in the source. -/
def caseMatchesQuery (c : Case) (query : String) : Bool :=
  strHasSub (lowerStr c.patient_name) query ||
  strHasSub (lowerStr c.slide_id) query ||
  strHasSub (lowerStr c.patient_id) query ||
  strHasSub (lowerStr c.diagnosis) query

/-- First stage of the filter `useEffect` of `app/page.tsx`: the search filter
is applied only when the trimmed query is non-empty (JavaScript truthiness of
`searchQuery.trim()`). -/
def searchFiltered (cases : List Case) (searchQuery : String) : List Case :=
  if jsTrim searchQuery ≠ "" then
    cases.filter (fun c => caseMatchesQuery c (lowerStr searchQuery))
  else cases

/-- The filter `useEffect` of `app/page.tsx`: apply the search filter when the
trimmed query is non-empty, then the status filter when one is set. -/
def filterCases (cases : List Case) (searchQuery : String) (statusFilter : Option Status) :
    List Case :=
  match statusFilter with
  | some st => (searchFiltered cases searchQuery).filter (fun c => c.status == st)
  | none => searchFiltered cases searchQuery

/-- The claim-side pass predicate of C1, with the trimming behaviour of the
code made explicit: a case passes when the query is whitespace-only or matches
one of the four fields, and the status filter (when set) matches. -/
def claimPasses (searchQuery : String) (statusFilter : Option Status) (c : Case) : Bool :=
  (decide (jsTrim searchQuery = "") || caseMatchesQuery c (lowerStr searchQuery)) &&
  (match statusFilter with
   | some st => c.status == st
   | none => true)

theorem filterCases_eq_filter (cases : List Case) (q : String) (sf : Option Status) :
    filterCases cases q sf = cases.filter (claimPasses q sf) := by
  by_cases h : jsTrim q = ""
  · have hs : searchFiltered cases q = cases := by
      unfold searchFiltered
      rw [if_neg (by simp [h])]
    cases sf with
    | none =>
      have hd : filterCases cases q none = searchFiltered cases q := rfl
      rw [hd, hs]
      exact (List.filter_eq_self.mpr (fun c _ => by simp [claimPasses, h])).symm
    | some st =>
      have hd : filterCases cases q (some st) =
          (searchFiltered cases q).filter (fun c => c.status == st) := rfl
      rw [hd, hs]
      exact List.filter_congr (fun c _ => by simp [claimPasses, h])
  · have hs : searchFiltered cases q =
        cases.filter (fun c => caseMatchesQuery c (lowerStr q)) := by
      unfold searchFiltered
      rw [if_pos (by simp [h])]
    cases sf with
    | none =>
      have hd : filterCases cases q none = searchFiltered cases q := rfl
      rw [hd, hs]
      exact List.filter_congr (fun c _ => by simp [claimPasses, h])
    | some st =>
      have hd : filterCases cases q (some st) =
          (searchFiltered cases q).filter (fun c => c.status == st) := rfl
      rw [hd, hs, List.filter_filter]
      exact List.filter_congr (fun c _ => by
        simp [claimPasses, h, Bool.and_comm])

/-- Example case used in the C1 counterexample: none of its four searched
fields contains a space. -/
def bobCase : Case :=
  { id := 1, patient_id := "p1", patient_name := "bob", slide_id := "s1",
    diagnosis := "melanoma", status := Status.PENDING, image_url := "",
    base_cpt := "88305", suggested_cpt := none, recovery_value := 0,
    confidence_score := 0, created_at := "" }

/-- C1 (counterexample): the claim as stated fails for a whitespace-only
query.  With query `" "`, the code skips the search filter entirely (the
trimmed query is empty), so `bobCase` stays in the filtered view even though
none of its patient name, slide id, patient id, or diagnosis contains `" "`
as a (case-insensitive) substring. -/
theorem filter_view_whitespace_query_cex :
    filterCases [bobCase] " " none = [bobCase] ∧
    caseMatchesQuery bobCase (lowerStr " ") = false ∧
    ¬ (∀ c : Case, c ∈ filterCases [bobCase] " " none ↔
        c ∈ [bobCase] ∧ caseMatchesQuery c (lowerStr " ") = true) := by
  refine ⟨by decide, by decide, fun h => ?_⟩
  have hb := (h bobCase).mp (by decide)
  exact absurd hb.2 (by decide)

/-- C1 (amended): for every case collection, query, and optional status
filter, the filtered view equals the collection filtered by the conjunction of
the (trim-aware) case-insensitive field match and the status filter; it is a
sublist of the collection, so the underlying collection is untouched and its
order preserved.  When the trimmed query is non-empty the field match is
exactly case-insensitive substring containment over patient name, slide id,
patient id and diagnosis; when the query is empty or whitespace-only every
case passes the search criterion. -/
theorem filter_view_characterization (cases : List Case) (q : String) (sf : Option Status) :
    filterCases cases q sf = cases.filter (claimPasses q sf) ∧
    (filterCases cases q sf).Sublist cases ∧
    (∀ c : Case, c ∈ filterCases cases q sf ↔ c ∈ cases ∧ claimPasses q sf c = true) := by
  refine ⟨filterCases_eq_filter cases q sf, ?_, ?_⟩
  · rw [filterCases_eq_filter]
    exact List.filter_sublist cases
  · intro c
    rw [filterCases_eq_filter]
    simp [List.mem_filter]

/-- The spec example for C1: cases `[{status: PENDING}, {status: VERIFIED}]`
with filter `status = VERIFIED` give a filtered view of length 1. -/
def verifiedBobCase : Case :=
  { bobCase with id := 2, slide_id := "s2", status := Status.VERIFIED }

example : (filterCases [bobCase, verifiedBobCase] "" (some Status.VERIFIED)).length = 1 := by
  decide

/-! ## Billing-detail reconstruction (`loadCaseBillingData`, `app/page.tsx`) -/

/-- The `reconstructedAnalysis` object built by `loadCaseBillingData` from a
case-detail response, including every JavaScript `||` default of the source. -/
def reconstructAnalysis (d : DetailResp) : BillingAnalysis :=
  { slide_id := d.slide_id,
    base_cpt := strOr d.base_cpt_code "88305",
    recommended_cpt := strOr d.suggested_cpt_code "88305",
    revenue_delta := numOr d.recovery_value 0,
    base_reimbursement := numOr d.base_reimbursement 72,
    optimized_reimbursement := numOr d.optimized_reimbursement 72,
    cpt_codes :=
      { base := strOr d.base_cpt_code "88305",
        recommended := strOr d.suggested_cpt_code "88305",
        ai_assisted := strOr d.ai_assisted_code "0596T",
        ancillary := listOr d.ancillary_codes },
    audit_narrative := strOr d.justification_text "Analysis data available.",
    complexity_indicators := listOr d.complexity_indicators,
    confidence_score := numOr d.confidence_score (19 / 20),
    audit_defense_score := numOr d.audit_defense_score 94,
    model_used := "gemini-1.5-flash",
    annotated_regions := listOr d.annotated_regions }

/-- `loadCaseBillingData` of `app/page.tsx` as a function from the selected
case and the oracle case-detail response (`none` when the fetch fails or the
response is not ok) to the resulting analysis state: `none` for a pending
case, `none` on fetch failure, the reconstructed analysis when the detail
carries analysis data (a truthy `suggested_cpt_code` or `justification_text`),
and `none` otherwise. -/
def loadCaseBillingData (c : Case) (resp : Option DetailResp) : Option BillingAnalysis :=
  if c.status = Status.PENDING then none
  else
    match resp with
    | none => none
    | some d =>
      if strTruthy d.suggested_cpt_code || strTruthy d.justification_text then
        some (reconstructAnalysis d)
      else none

/-! ## Controller state and operations (`PathoAIDashboard`, `app/page.tsx`) -/

/-- The controller state of `PathoAIDashboard`: the case collection, the
selection, the ephemeral analysis result, the acknowledged (clicked) region
identifiers, the detail (region) selection, and the search/filter inputs.
Transient loading flags are omitted: they are `true` only while a handler is
in flight and every transition here models a completed handler. -/
structure DashState where
  cases : List Case
  selectedCase : Option Case
  billingAnalysis : Option BillingAnalysis
  clickedRegions : Finset ℕ
  selectedRegion : Option AnnotatedRegion
  searchQuery : String
  statusFilter : Option Status
deriving DecidableEq

/-- `canVerify` of `app/page.tsx` (line 454): an analysis result is present
and at least one region has been acknowledged. -/
def canVerify (s : DashState) : Bool :=
  s.billingAnalysis.isSome && decide (1 ≤ s.clickedRegions.card)

/-- `isVerified` of `app/page.tsx` (line 455): the selected case is VERIFIED
or EXPORTED (false when no case is selected). -/
def isVerifiedGate (s : DashState) : Bool :=
  match s.selectedCase with
  | some sc => sc.status == Status.VERIFIED || sc.status == Status.EXPORTED
  | none => false

/-- The disabled expression of the verify/export button
(`app/page.tsx`, line 1241). -/
def verifyButtonDisabled (s : DashState) (isVerifying isDownloading : Bool) : Bool :=
  (!canVerify s && !isVerifiedGate s) || isVerifying || isDownloading

/-- Update every case whose slide id matches, as the `setCases(prev =>
prev.map(...))` calls of the handlers do. -/
def markCases (cs : List Case) (slide : String) (f : Case → Case) : List Case :=
  cs.map (fun c => if c.slide_id == slide then f c else c)

/-- Outcome of the billing-detail `useEffect` after a selection change: the
effect fetches only when a case is selected, and `loadCaseBillingData`
replaces the analysis result with the (possibly empty) outcome. -/
def refetchFor (onc : Option Case) (detail : Option DetailResp) : Option BillingAnalysis :=
  match onc with
  | some nc => loadCaseBillingData nc detail
  | none => none

/-- The edit-modal form fields of `handleUpdateCase`. -/
structure EditForm where
  patientId : String
  patientName : String
  diagnosis : String
deriving DecidableEq

/-- The user operations of the controller.  Each constructor carries the
oracle responses of the remote calls the handler makes: `none`/`false` models
a failed call.  Operations whose handler replaces `selectedCase` also carry
the case-detail response consumed by the billing-detail `useEffect` that fires
on every selection change. -/
inductive Op
  | select (c : Case) (detail : Option DetailResp)
  | analyze (result : Option BillingAnalysis) (detail : Option DetailResp)
  | regionClick (r : AnnotatedRegion) (logOk : Bool)
  | verify (success : Bool) (detail : Option DetailResp)
  | exportPdf (detail : Option DetailResp)
  | editCase (target : Case) (f : EditForm) (success : Bool) (detail : Option DetailResp)
  | delCase (target : Case) (success : Bool) (detail : Option DetailResp)
  | setSearch (q : String)
  | setFilter (sf : Option Status)
deriving DecidableEq

/-- One completed user operation on the controller state, combining the UI
guard (a handler can only run from a control that is rendered and enabled),
the handler body, and the billing-detail `useEffect` where the handler
replaces the selection.  A guard that fails leaves the state unchanged. -/
def stepOp (s : DashState) : Op → DashState
  | Op.select c detail =>
    if c ∈ filterCases s.cases s.searchQuery s.statusFilter then
      { s with selectedCase := some c,
               clickedRegions := ∅,
               selectedRegion := none,
               billingAnalysis := loadCaseBillingData c detail }
    else s
  | Op.analyze result detail =>
    match s.selectedCase with
    | none => s
    | some sc =>
      if sc.status == Status.PENDING && s.billingAnalysis.isNone then
        match result with
        | none =>
          { s with billingAnalysis := none, clickedRegions := ∅, selectedRegion := none }
        | some r =>
          { s with
            cases := markCases s.cases sc.slide_id (fun c =>
              { c with status := Status.ANALYZED,
                       suggested_cpt := some r.recommended_cpt,
                       recovery_value := r.revenue_delta }),
            selectedCase := some { sc with status := Status.ANALYZED },
            clickedRegions := ∅,
            selectedRegion := none,
            billingAnalysis :=
              loadCaseBillingData { sc with status := Status.ANALYZED } detail }
      else s
  | Op.regionClick r _ =>
    if s.selectedCase.isSome && s.billingAnalysis.isSome then
      { s with selectedRegion := some r,
               clickedRegions := insert r.id s.clickedRegions }
    else s
  | Op.verify success detail =>
    match s.selectedCase, s.billingAnalysis with
    | some sc, some _ =>
      if !isVerifiedGate s && decide (1 ≤ s.clickedRegions.card) then
        if success then
          { s with
            cases := markCases s.cases sc.slide_id (fun c =>
              { c with status := Status.VERIFIED }),
            selectedCase := some { sc with status := Status.VERIFIED },
            billingAnalysis :=
              loadCaseBillingData { sc with status := Status.VERIFIED } detail }
        else s
      else s
    | _, _ => s
  | Op.exportPdf detail =>
    match s.selectedCase with
    | some sc =>
      if isVerifiedGate s then
        { s with
          cases := markCases s.cases sc.slide_id (fun c =>
            { c with status := Status.EXPORTED }),
          selectedCase := some { sc with status := Status.EXPORTED },
          billingAnalysis :=
            loadCaseBillingData { sc with status := Status.EXPORTED } detail }
      else s
    | none => s
  | Op.editCase target f success detail =>
    if target ∈ filterCases s.cases s.searchQuery s.statusFilter then
      if success then
        let upd : Case → Case := fun c =>
          { c with patient_id := f.patientId, patient_name := f.patientName,
                   diagnosis := f.diagnosis }
        match s.selectedCase with
        | some sc =>
          if sc.slide_id == target.slide_id then
            { s with cases := markCases s.cases target.slide_id upd,
                     selectedCase := some (upd sc),
                     billingAnalysis := loadCaseBillingData (upd sc) detail }
          else { s with cases := markCases s.cases target.slide_id upd }
        | none => { s with cases := markCases s.cases target.slide_id upd }
      else s
    else s
  | Op.delCase target success detail =>
    if target ∈ filterCases s.cases s.searchQuery s.statusFilter then
      if success then
        let newCases := s.cases.filter (fun c => !(c.slide_id == target.slide_id))
        match s.selectedCase with
        | some sc =>
          if sc.slide_id == target.slide_id then
            { s with cases := newCases, selectedCase := newCases.head?,
                     billingAnalysis := refetchFor newCases.head? detail }
          else { s with cases := newCases }
        | none => { s with cases := newCases }
      else s
    else s
  | Op.setSearch q => { s with searchQuery := q }
  | Op.setFilter sf => { s with statusFilter := sf }

/-- The state of the dashboard right after the initial `loadCases` succeeds:
the collection is replaced, the first case (if any) is selected, and the
billing-detail `useEffect` runs for that selection with the oracle response
`detail`. -/
def initLoad (data : List Case) (detail : Option DetailResp) : DashState :=
  { cases := data,
    selectedCase := data.head?,
    billingAnalysis :=
      match data.head? with
      | some c => loadCaseBillingData c detail
      | none => none,
    clickedRegions := ∅,
    selectedRegion := none,
    searchQuery := "",
    statusFilter := none }

/-- States the controller can be in: an initial load (of a collection with
distinct slide ids, as slide ids are the server's case keys) followed by any
sequence of completed user operations. -/
inductive Reachable : DashState → Prop
  | init (data : List Case) (detail : Option DetailResp)
      (hnd : (data.map (fun c => c.slide_id)).Nodup) :
      Reachable (initLoad data detail)
  | step {s : DashState} (op : Op) : Reachable s → Reachable (stepOp s op)

/-! ## Demo fixtures used by concrete instances -/

/-- Demo annotated region with identifier 3. -/
def demoRegion3 : AnnotatedRegion :=
  { id := 3, x := 10, y := 20, width := 30, height := 40,
    label := "Mitotic figures", description := "High mitotic activity",
    cpt_impact := "88307", billable := true }

/-- Demo analysis result carrying `demoRegion3`. -/
def demoAnalysis : BillingAnalysis :=
  { slide_id := "WSI-1", base_cpt := "88305", recommended_cpt := "88307",
    revenue_delta := 50, base_reimbursement := 72, optimized_reimbursement := 122,
    cpt_codes := { base := "88305", recommended := "88307",
                   ai_assisted := "0596T", ancillary := [] },
    audit_narrative := "Audit narrative.",
    complexity_indicators := ["High cellularity", "Diffuse infiltration"],
    confidence_score := 1, audit_defense_score := 94,
    model_used := "gemini-1.5-flash", annotated_regions := [demoRegion3] }

/-- Demo case that has already been analyzed. -/
def demoCase1 : Case :=
  { id := 1, patient_id := "PT-1", patient_name := "Alice", slide_id := "WSI-1",
    diagnosis := "Lesion", status := Status.ANALYZED,
    image_url := "/uploads/wsi1.png", base_cpt := "88305",
    suggested_cpt := some "88307", recovery_value := 50, confidence_score := 1,
    created_at := "2026-01-01" }

/-- Demo pending case. -/
def demoPending : Case :=
  { id := 0, patient_id := "PT-0", patient_name := "Bob", slide_id := "WSI-0",
    diagnosis := "Biopsy", status := Status.PENDING, image_url := "",
    base_cpt := "88305", suggested_cpt := none, recovery_value := 0,
    confidence_score := 0, created_at := "2026-01-02" }

/-- Demo case-detail response for `demoCase1` carrying analysis data. -/
def demoDetail : DetailResp :=
  { slide_id := "WSI-1", base_cpt_code := some "88305",
    suggested_cpt_code := some "88307", recovery_value := some 50,
    base_reimbursement := some 72, optimized_reimbursement := some 122,
    ai_assisted_code := some "0596T", ancillary_codes := some [],
    justification_text := some "Justified.",
    complexity_indicators := some ["High cellularity", "Diffuse infiltration"],
    confidence_score := some 1, audit_defense_score := some 94,
    annotated_regions := some [demoRegion3] }

/-- Demo dashboard state with an analysis present and nothing acknowledged. -/
def ackDemoState : DashState :=
  { cases := [demoCase1], selectedCase := some demoCase1,
    billingAnalysis := some demoAnalysis, clickedRegions := ∅,
    selectedRegion := none, searchQuery := "", statusFilter := none }

/-! ## C5: acknowledging a region is idempotent and fire-and-forget -/

/-- C5: acknowledging the same region twice yields the same state as
acknowledging it once; the outcome of the asynchronous logging call does not
influence the state at all (fire-and-forget); and, concretely, acknowledging
region id 3 twice starting from an empty acknowledged set leaves a set of
size 1. -/
theorem region_ack_idempotent :
    (∀ (s : DashState) (r : AnnotatedRegion) (ok1 ok2 : Bool),
      stepOp (stepOp s (Op.regionClick r ok1)) (Op.regionClick r ok2) =
        stepOp s (Op.regionClick r ok1) ∧
      stepOp s (Op.regionClick r ok1) = stepOp s (Op.regionClick r ok2)) ∧
    (stepOp (stepOp ackDemoState (Op.regionClick demoRegion3 true))
        (Op.regionClick demoRegion3 false)).clickedRegions.card = 1 := by
  refine ⟨fun s r ok1 ok2 => ⟨?_, rfl⟩, by decide⟩
  by_cases h : (s.selectedCase.isSome && s.billingAnalysis.isSome) = true
  · simp [stepOp, h, Finset.insert_idem]
  · simp [stepOp, h]

/-! ## C2: selecting a case -/

/-- C2 (amended): selecting a listed case sets it as the selected case,
clears the acknowledged-region set and the detail selection, and replaces the
analysis result with the outcome of the billing-detail fetch for the newly
selected case — which is empty when that case is pending (and also when the
fetch fails or the detail carries no analysis data), but is the reconstructed
analysis of the new case when its stored detail carries analysis data.  The
previous analysis result never survives a selection change. -/
theorem select_case_behavior (s : DashState) (c : Case) (detail : Option DetailResp)
    (hc : c ∈ filterCases s.cases s.searchQuery s.statusFilter) :
    (stepOp s (Op.select c detail)).selectedCase = some c ∧
    (stepOp s (Op.select c detail)).clickedRegions = ∅ ∧
    (stepOp s (Op.select c detail)).selectedRegion = none ∧
    (stepOp s (Op.select c detail)).billingAnalysis = loadCaseBillingData c detail ∧
    (c.status = Status.PENDING → (stepOp s (Op.select c detail)).billingAnalysis = none) := by
  simp only [stepOp, if_pos hc]
  refine ⟨trivial, trivial, trivial, trivial, fun hp => ?_⟩
  simp [loadCaseBillingData, hp]

/-- Reachable state used by the C2 instances: the dashboard loaded with a
pending case (initially selected) and an analyzed case. -/
def c2State : DashState := initLoad [demoPending, demoCase1] none

/-- C2 (witness): the amended selection contract evaluated at a concrete
reachable state, selecting the analyzed demo case. -/
theorem select_case_behavior_witness :
    (stepOp c2State (Op.select demoCase1 (some demoDetail))).selectedCase = some demoCase1 ∧
    (stepOp c2State (Op.select demoCase1 (some demoDetail))).clickedRegions = ∅ ∧
    (stepOp c2State (Op.select demoCase1 (some demoDetail))).selectedRegion = none ∧
    (stepOp c2State (Op.select demoCase1 (some demoDetail))).billingAnalysis =
      loadCaseBillingData demoCase1 (some demoDetail) ∧
    (demoCase1.status = Status.PENDING →
      (stepOp c2State (Op.select demoCase1 (some demoDetail))).billingAnalysis = none) :=
  select_case_behavior c2State demoCase1 (some demoDetail) (by decide)

/-- C2 (counterexample): selecting a case does not leave the analysis result
empty.  From the reachable state `c2State`, selecting the analyzed case
`demoCase1`, whose stored detail carries analysis data, completes with a
non-empty analysis result. -/
theorem select_case_keeps_analysis_cex :
    Reachable c2State ∧
    (stepOp c2State (Op.select demoCase1 (some demoDetail))).billingAnalysis ≠ none := by
  constructor
  · exact Reachable.init [demoPending, demoCase1] none (by decide)
  · decide

/-! ## C6: a failed analyze call -/

/-- C6: when the selected case is pending (so the analyze control is shown,
which also requires that no analysis result is present) and the analyze call
fails, the case collection is untouched, the selected case is unchanged (still
pending), and the analysis result is empty. -/
theorem analyze_failure_preserves_state (s : DashState) (sc : Case)
    (detail : Option DetailResp)
    (hsel : s.selectedCase = some sc) (hp : sc.status = Status.PENDING)
    (hb : s.billingAnalysis = none) :
    (stepOp s (Op.analyze none detail)).cases = s.cases ∧
    (stepOp s (Op.analyze none detail)).selectedCase = some sc ∧
    (stepOp s (Op.analyze none detail)).billingAnalysis = none := by
  have hg : (sc.status == Status.PENDING && s.billingAnalysis.isNone) = true := by
    simp [hp, hb]
  simp only [stepOp, hsel, hg, if_true]
  exact ⟨trivial, trivial, trivial⟩

/-- C6 (witness): the failed-analyze contract evaluated at the freshly loaded
single pending case. -/
theorem analyze_failure_preserves_state_witness :
    (stepOp (initLoad [demoPending] none) (Op.analyze none none)).cases =
      (initLoad [demoPending] none).cases ∧
    (stepOp (initLoad [demoPending] none) (Op.analyze none none)).selectedCase =
      some demoPending ∧
    (stepOp (initLoad [demoPending] none) (Op.analyze none none)).billingAnalysis = none :=
  analyze_failure_preserves_state (initLoad [demoPending] none) demoPending none
    (by decide) (by decide) (by decide)

/-! ## C3: the verify gate -/

/-- C3 (amended): the verify gate `canVerify` is true exactly when an
analysis result is present AND the acknowledged-region set is non-empty; in
particular it is disabled whenever the set is empty, and (with the transient
in-flight flags down and the selected case not yet verified) the verify/export
button is enabled exactly when `canVerify` holds. -/
theorem verify_gate_characterization (s : DashState) :
    (canVerify s = true ↔ (s.billingAnalysis.isSome = true ∧ s.clickedRegions.Nonempty)) ∧
    (s.clickedRegions = ∅ → canVerify s = false) ∧
    (isVerifiedGate s = false →
      (verifyButtonDisabled s false false = false ↔ canVerify s = true)) := by
  refine ⟨?_, ?_, ?_⟩
  · unfold canVerify
    rw [Bool.and_eq_true]
    simp [Nat.one_le_iff_ne_zero, Finset.card_ne_zero, Finset.nonempty_iff_ne_empty]
  · intro h
    unfold canVerify
    simp [h]
  · intro h
    unfold verifyButtonDisabled
    rw [h]
    cases hcv : canVerify s <;> simp [hcv]

/-- C3 (witness): the amended gate characterization evaluated at the concrete
demo state (analysis present, no region acknowledged yet). -/
theorem verify_gate_characterization_witness :
    (canVerify ackDemoState = true ↔
      (ackDemoState.billingAnalysis.isSome = true ∧ ackDemoState.clickedRegions.Nonempty)) ∧
    (ackDemoState.clickedRegions = ∅ → canVerify ackDemoState = false) ∧
    (isVerifiedGate ackDemoState = false →
      (verifyButtonDisabled ackDemoState false false = false ↔
        canVerify ackDemoState = true)) :=
  verify_gate_characterization ackDemoState

/-- Reachable trace for the C3 counterexample: load the analyzed demo case
(whose detail fetch reconstructs an analysis), acknowledge region 3, then
verify successfully while the billing-detail re-fetch triggered by the
status change fails. -/
def c3State : DashState :=
  stepOp (stepOp (initLoad [demoCase1] (some demoDetail))
      (Op.regionClick demoRegion3 true))
    (Op.verify true none)

/-- C3 (counterexample): the verify gate does not track the acknowledged set
exactly.  In the reachable state `c3State` the acknowledged set is non-empty
(region 3 is still acknowledged after the successful verification), yet
`canVerify` is false, because the billing-detail re-fetch that follows the
verification failed and cleared the analysis result. -/
theorem verify_gate_nonempty_not_sufficient_cex :
    Reachable c3State ∧ c3State.clickedRegions.Nonempty ∧ canVerify c3State = false := by
  refine ⟨?_, by decide, by decide⟩
  exact Reachable.step _ (Reachable.step _
    (Reachable.init [demoCase1] (some demoDetail) (by decide)))

/-! ## C7: deleting a case -/

/-- C7 (amended): successfully deleting a listed case removes every case with
its slide id from the collection; when the deleted case was the selected one,
the selection moves to the FIRST remaining case (or to no selection when none
remains) and the analysis result is replaced by the billing detail fetched for
that new selection (empty when no case remains); when the deleted case was not
the selected one, the selection and the analysis result are unchanged. -/
theorem delete_selected_behavior (s : DashState) (target sc : Case)
    (detail : Option DetailResp)
    (ht : target ∈ filterCases s.cases s.searchQuery s.statusFilter)
    (hsel : s.selectedCase = some sc) :
    (sc.slide_id = target.slide_id →
      (stepOp s (Op.delCase target true detail)).cases =
        s.cases.filter (fun c => !(c.slide_id == target.slide_id)) ∧
      (stepOp s (Op.delCase target true detail)).selectedCase =
        (s.cases.filter (fun c => !(c.slide_id == target.slide_id))).head? ∧
      (stepOp s (Op.delCase target true detail)).billingAnalysis =
        refetchFor (s.cases.filter (fun c => !(c.slide_id == target.slide_id))).head?
          detail) ∧
    (sc.slide_id ≠ target.slide_id →
      (stepOp s (Op.delCase target true detail)).cases =
        s.cases.filter (fun c => !(c.slide_id == target.slide_id)) ∧
      (stepOp s (Op.delCase target true detail)).selectedCase = some sc ∧
      (stepOp s (Op.delCase target true detail)).billingAnalysis = s.billingAnalysis) := by
  constructor
  · intro heq
    have hbeq : (sc.slide_id == target.slide_id) = true := by simp [heq]
    simp [stepOp, ht, hsel, hbeq]
  · intro hne
    have hbeq : (sc.slide_id == target.slide_id) = false := by simp [hne]
    simp [stepOp, ht, hsel, hbeq]

/-- Three-case collection for the C7 instances: an analyzed case followed by
two pending ones, with the middle case selected. -/
def c7A : Case :=
  { demoCase1 with id := 11, slide_id := "WSI-A", patient_id := "PT-A" }

/-- Middle (selected, then deleted) case of the C7 instances. -/
def c7B : Case :=
  { demoPending with id := 12, slide_id := "WSI-B", patient_id := "PT-B" }

/-- Last case of the C7 instances. -/
def c7C : Case :=
  { demoPending with id := 13, slide_id := "WSI-C", patient_id := "PT-C" }

/-- Detail response for `c7A` carrying analysis data. -/
def c7DetailA : DetailResp := { demoDetail with slide_id := "WSI-A" }

/-- Reachable state for the C7 instances: collection `[c7A, c7B, c7C]` with
`c7B` selected. -/
def c7State : DashState :=
  stepOp (initLoad [c7A, c7B, c7C] none) (Op.select c7B none)

/-- C7 (counterexample): deleting the selected middle case `c7B` moves the
selection to the FIRST remaining case `c7A` — not to the next remaining case
`c7C` — and, because the billing-detail fetch for the new selection returns
analysis data, the analysis result afterwards is not empty. -/
theorem delete_selected_first_not_next_cex :
    Reachable c7State ∧
    (stepOp c7State (Op.delCase c7B true (some c7DetailA))).selectedCase = some c7A ∧
    c7A ≠ c7C ∧
    (stepOp c7State (Op.delCase c7B true (some c7DetailA))).billingAnalysis ≠ none := by
  refine ⟨?_, by decide, by decide, by decide⟩
  exact Reachable.step _ (Reachable.init [c7A, c7B, c7C] none (by decide))

/-- C7 (witness): the amended deletion contract evaluated at the concrete
reachable state `c7State`, deleting the selected case `c7B`. -/
theorem delete_selected_behavior_witness :
    (c7B.slide_id = c7B.slide_id →
      (stepOp c7State (Op.delCase c7B true (some c7DetailA))).cases =
        c7State.cases.filter (fun c => !(c.slide_id == c7B.slide_id)) ∧
      (stepOp c7State (Op.delCase c7B true (some c7DetailA))).selectedCase =
        (c7State.cases.filter (fun c => !(c.slide_id == c7B.slide_id))).head? ∧
      (stepOp c7State (Op.delCase c7B true (some c7DetailA))).billingAnalysis =
        refetchFor (c7State.cases.filter (fun c => !(c.slide_id == c7B.slide_id))).head?
          (some c7DetailA)) ∧
    (c7B.slide_id ≠ c7B.slide_id →
      (stepOp c7State (Op.delCase c7B true (some c7DetailA))).cases =
        c7State.cases.filter (fun c => !(c.slide_id == c7B.slide_id)) ∧
      (stepOp c7State (Op.delCase c7B true (some c7DetailA))).selectedCase = some c7B ∧
      (stepOp c7State (Op.delCase c7B true (some c7DetailA))).billingAnalysis =
        c7State.billingAnalysis) :=
  delete_selected_behavior c7State c7B c7B (some c7DetailA) (by decide) (by decide)

/-! ## C8: exporting the audit PDF -/

/-- C8: the export action is gated by `isVerified`: with a selected case the
gate holds exactly when that case is VERIFIED or EXPORTED; when the gate is
down (PENDING or ANALYZED) the export operation is not invocable and the state
is untouched; when the gate holds, invoking it optimistically marks the
selected case (and its entry in the collection) EXPORTED. -/
theorem export_gate (s : DashState) (sc : Case) (detail : Option DetailResp)
    (hsel : s.selectedCase = some sc) :
    (isVerifiedGate s = true ↔
      (sc.status = Status.VERIFIED ∨ sc.status = Status.EXPORTED)) ∧
    (isVerifiedGate s = false → stepOp s (Op.exportPdf detail) = s) ∧
    (isVerifiedGate s = true →
      (stepOp s (Op.exportPdf detail)).selectedCase =
        some { sc with status := Status.EXPORTED } ∧
      (stepOp s (Op.exportPdf detail)).cases =
        markCases s.cases sc.slide_id (fun c => { c with status := Status.EXPORTED })) := by
  refine ⟨?_, ?_, ?_⟩
  · unfold isVerifiedGate
    rw [hsel]
    simp
  · intro hg
    simp only [stepOp, hsel, hg]
    simp
  · intro hg
    simp only [stepOp, hsel, hg, if_true]
    exact ⟨trivial, trivial⟩

/-- Verified demo case for the C8 witness. -/
def demoVerified : Case :=
  { demoCase1 with id := 21, slide_id := "WSI-V", status := Status.VERIFIED }

/-- Reachable state for the C8 witness: a single verified case loaded. -/
def c8State : DashState := initLoad [demoVerified] none

/-- C8 (witness): the export gate contract evaluated at the concrete state
with the verified demo case selected. -/
theorem export_gate_witness :
    (isVerifiedGate c8State = true ↔
      (demoVerified.status = Status.VERIFIED ∨ demoVerified.status = Status.EXPORTED)) ∧
    (isVerifiedGate c8State = false → stepOp c8State (Op.exportPdf none) = c8State) ∧
    (isVerifiedGate c8State = true →
      (stepOp c8State (Op.exportPdf none)).selectedCase =
        some { demoVerified with status := Status.EXPORTED } ∧
      (stepOp c8State (Op.exportPdf none)).cases =
        markCases c8State.cases demoVerified.slide_id
          (fun c => { c with status := Status.EXPORTED })) :=
  export_gate c8State demoVerified none (by decide)

/-! ## C4: status monotonicity -/

/-- A case that appears in the filtered view appears in the collection. -/
theorem mem_filterCases_subset {c : Case} {cs : List Case} {q : String}
    {sf : Option Status} (h : c ∈ filterCases cs q sf) : c ∈ cs := by
  rw [filterCases_eq_filter] at h
  exact List.mem_of_mem_filter h

/-- `markCases` preserves the slide ids of the collection whenever the update
function does. -/
theorem markCases_map_slide (cs : List Case) (sl : String) (f : Case → Case)
    (hf : ∀ c, (f c).slide_id = c.slide_id) :
    (markCases cs sl f).map (fun c => c.slide_id) = cs.map (fun c => c.slide_id) := by
  unfold markCases
  rw [List.map_map]
  apply List.map_congr_left
  intro c _
  by_cases h : (c.slide_id == sl) = true
  · simp only [Function.comp_apply, h, if_true, hf]
  · simp only [Function.comp_apply, h]
    simp

/-- `markCases` keeps the slide ids distinct whenever the update function
preserves them. -/
theorem nodup_markCases {cs : List Case} (hnd : (cs.map (fun c => c.slide_id)).Nodup)
    (sl : String) (f : Case → Case) (hf : ∀ c, (f c).slide_id = c.slide_id) :
    ((markCases cs sl f).map (fun c => c.slide_id)).Nodup := by
  rw [markCases_map_slide cs sl f hf]
  exact hnd

/-- A collection member whose slide id matches is sent to its update by
`markCases`. -/
theorem mem_markCases_of_match {cs : List Case} {sl : String} {f : Case → Case}
    {c0 : Case} (hm : c0 ∈ cs) (he : (c0.slide_id == sl) = true) :
    f c0 ∈ markCases cs sl f := by
  have h : (fun c => if c.slide_id == sl then f c else c) c0 = f c0 := by
    simp only [he, if_true]
  exact h ▸ List.mem_map_of_mem _ hm

/-- A collection member whose slide id does not match is kept unchanged by
`markCases`. -/
theorem mem_markCases_of_nomatch {cs : List Case} {sl : String} {f : Case → Case}
    {c0 : Case} (hm : c0 ∈ cs) (he : (c0.slide_id == sl) = false) :
    c0 ∈ markCases cs sl f := by
  have h : (fun c => if c.slide_id == sl then f c else c) c0 = c0 := by
    simp only [he, Bool.false_eq_true, if_false]
  exact h ▸ List.mem_map_of_mem _ hm

/-- Every member of `markCases cs sl f` is a member of `cs`, updated when its
slide id matches. -/
theorem markCases_mem_inv {cs : List Case} {sl : String} {f : Case → Case}
    {cPost : Case} (h : cPost ∈ markCases cs sl f) :
    ∃ a ∈ cs, cPost = if a.slide_id == sl then f a else a := by
  unfold markCases at h
  obtain ⟨a, ha, hEq⟩ := List.mem_map.mp h
  exact ⟨a, ha, hEq.symm⟩

/-- With distinct slide ids, the slide id determines the collection member. -/
theorem nodup_key {l : List Case} (hnd : (l.map (fun c => c.slide_id)).Nodup)
    {a b : Case} (ha : a ∈ l) (hb : b ∈ l) (hs : a.slide_id = b.slide_id) : a = b :=
  List.inj_on_of_nodup_map hnd ha hb hs

/-- Controller invariant: the collection's slide ids are distinct (they are
the server's case keys), and the selected case, when present, agrees in slide
id and status with a member of the collection. -/
def CtrlInv (s : DashState) : Prop :=
  (s.cases.map (fun c => c.slide_id)).Nodup ∧
  ∀ sc, s.selectedCase = some sc →
    ∃ c ∈ s.cases, c.slide_id = sc.slide_id ∧ c.status = sc.status

/-- Every operation preserves the controller invariant. -/
theorem inv_step (s : DashState) (op : Op) (h : CtrlInv s) : CtrlInv (stepOp s op) := by
  obtain ⟨hnd, hco⟩ := h
  cases op with
  | select c detail =>
    by_cases hc : c ∈ filterCases s.cases s.searchQuery s.statusFilter
    · simp only [stepOp, if_pos hc]
      refine ⟨hnd, fun sc hsc => ?_⟩
      obtain rfl : c = sc := by simpa using hsc
      exact ⟨c, mem_filterCases_subset hc, rfl, rfl⟩
    · simp only [stepOp, if_neg hc]
      exact ⟨hnd, hco⟩
  | analyze result detail =>
    cases hsel : s.selectedCase with
    | none =>
      simp only [stepOp, hsel]
      exact ⟨hnd, hco⟩
    | some sc =>
      by_cases hg : (sc.status == Status.PENDING && s.billingAnalysis.isNone) = true
      · cases result with
        | none =>
          simp only [stepOp, hsel, hg, if_true]
          refine ⟨hnd, fun sc2 hsc2 => ?_⟩
          obtain rfl : sc = sc2 := by simpa using hsc2
          exact hco sc hsel
        | some r =>
          simp only [stepOp, hsel, hg, if_true]
          obtain ⟨c0, hc0m, hc0s, hc0st⟩ := hco sc hsel
          refine ⟨nodup_markCases hnd _ _ (fun a => rfl), fun sc2 hsc2 => ?_⟩
          obtain rfl : { sc with status := Status.ANALYZED } = sc2 := by
            simpa using hsc2
          exact ⟨_, mem_markCases_of_match hc0m (by simp [hc0s]), hc0s, rfl⟩
      · simp only [stepOp, hsel, hg, Bool.false_eq_true, if_false]
        exact ⟨hnd, hco⟩
  | regionClick r logOk =>
    by_cases hg : (s.selectedCase.isSome && s.billingAnalysis.isSome) = true
    · simp only [stepOp, hg, if_true]
      exact ⟨hnd, hco⟩
    · simp only [stepOp, hg, Bool.false_eq_true, if_false]
      exact ⟨hnd, hco⟩
  | verify success detail =>
    cases hsel : s.selectedCase with
    | none =>
      simp only [stepOp, hsel]
      exact ⟨hnd, hco⟩
    | some sc =>
      cases hba : s.billingAnalysis with
      | none =>
        simp only [stepOp, hsel, hba]
        exact ⟨hnd, hco⟩
      | some b =>
        by_cases hg : (!isVerifiedGate s && decide (1 ≤ s.clickedRegions.card)) = true
        · cases success with
          | false =>
            simp only [stepOp, hsel, hba, hg, if_true, Bool.false_eq_true, if_false]
            exact ⟨hnd, hco⟩
          | true =>
            simp only [stepOp, hsel, hba, hg, if_true]
            obtain ⟨c0, hc0m, hc0s, hc0st⟩ := hco sc hsel
            refine ⟨nodup_markCases hnd _ _ (fun a => rfl), fun sc2 hsc2 => ?_⟩
            obtain rfl : { sc with status := Status.VERIFIED } = sc2 := by
              simpa using hsc2
            exact ⟨_, mem_markCases_of_match hc0m (by simp [hc0s]), hc0s, rfl⟩
        · simp only [stepOp, hsel, hba, hg, Bool.false_eq_true, if_false]
          exact ⟨hnd, hco⟩
  | exportPdf detail =>
    cases hsel : s.selectedCase with
    | none =>
      simp only [stepOp, hsel]
      exact ⟨hnd, hco⟩
    | some sc =>
      by_cases hg : isVerifiedGate s = true
      · simp only [stepOp, hsel, hg, if_true]
        obtain ⟨c0, hc0m, hc0s, hc0st⟩ := hco sc hsel
        refine ⟨nodup_markCases hnd _ _ (fun a => rfl), fun sc2 hsc2 => ?_⟩
        obtain rfl : { sc with status := Status.EXPORTED } = sc2 := by
          simpa using hsc2
        exact ⟨_, mem_markCases_of_match hc0m (by simp [hc0s]), hc0s, rfl⟩
      · simp only [stepOp, hsel, hg, Bool.false_eq_true, if_false]
        exact ⟨hnd, hco⟩
  | editCase target f success detail =>
    by_cases ht : target ∈ filterCases s.cases s.searchQuery s.statusFilter
    · cases success with
      | false =>
        simp only [stepOp, if_pos ht, Bool.false_eq_true, if_false]
        exact ⟨hnd, hco⟩
      | true =>
        cases hsel : s.selectedCase with
        | none =>
          simp only [stepOp, if_pos ht, if_true, hsel]
          exact ⟨nodup_markCases hnd _ _ (fun a => rfl), fun sc2 hsc2 => by simp at hsc2⟩
        | some sc =>
          obtain ⟨c0, hc0m, hc0s, hc0st⟩ := hco sc hsel
          by_cases hm : (sc.slide_id == target.slide_id) = true
          · simp only [stepOp, if_pos ht, if_true, hsel, hm]
            refine ⟨nodup_markCases hnd _ _ (fun a => rfl), fun sc2 hsc2 => ?_⟩
            obtain rfl :
                { sc with patient_id := f.patientId, patient_name := f.patientName,
                          diagnosis := f.diagnosis } = sc2 := by
              simpa using hsc2
            refine ⟨_, mem_markCases_of_match hc0m ?_, hc0s, hc0st⟩
            rw [hc0s]
            exact hm
          · simp only [stepOp, if_pos ht, if_true, hsel, hm, Bool.false_eq_true, if_false]
            refine ⟨nodup_markCases hnd _ _ (fun a => rfl), fun sc2 hsc2 => ?_⟩
            obtain rfl : sc = sc2 := by simpa using hsc2
            refine ⟨c0, mem_markCases_of_nomatch hc0m ?_, hc0s, hc0st⟩
            rw [hc0s]
            simpa using hm
    · simp only [stepOp, if_neg ht]
      exact ⟨hnd, hco⟩
  | delCase target success detail =>
    by_cases ht : target ∈ filterCases s.cases s.searchQuery s.statusFilter
    · cases success with
      | false =>
        simp only [stepOp, if_pos ht, Bool.false_eq_true, if_false]
        exact ⟨hnd, hco⟩
      | true =>
        have hndf : ((s.cases.filter (fun c => !(c.slide_id == target.slide_id))).map
            (fun c => c.slide_id)).Nodup :=
          hnd.sublist ((List.filter_sublist s.cases).map _)
        cases hsel : s.selectedCase with
        | none =>
          simp only [stepOp, if_pos ht, if_true, hsel]
          exact ⟨hndf, fun sc2 hsc2 => by simp at hsc2⟩
        | some sc =>
          obtain ⟨c0, hc0m, hc0s, hc0st⟩ := hco sc hsel
          by_cases hm : (sc.slide_id == target.slide_id) = true
          · simp only [stepOp, if_pos ht, if_true, hsel, hm]
            refine ⟨hndf, fun sc2 hsc2 => ?_⟩
            have hsc2m : sc2 ∈ s.cases.filter (fun c => !(c.slide_id == target.slide_id)) :=
              List.mem_of_mem_head? (Option.mem_def.mpr hsc2)
            exact ⟨sc2, hsc2m, rfl, rfl⟩
          · simp only [stepOp, if_pos ht, if_true, hsel, hm, Bool.false_eq_true, if_false]
            refine ⟨hndf, fun sc2 hsc2 => ?_⟩
            obtain rfl : sc = sc2 := by simpa using hsc2
            refine ⟨c0, List.mem_filter.mpr ⟨hc0m, ?_⟩, hc0s, hc0st⟩
            rw [hc0s]
            simpa using hm
    · simp only [stepOp, if_neg ht]
      exact ⟨hnd, hco⟩
  | setSearch q =>
    exact ⟨hnd, hco⟩
  | setFilter sf =>
    exact ⟨hnd, hco⟩

/-- Every reachable controller state satisfies the invariant. -/
theorem reachable_inv {s : DashState} (h : Reachable s) : CtrlInv s := by
  induction h with
  | init data detail hnd =>
    refine ⟨hnd, fun sc hsc => ?_⟩
    cases data with
    | nil => simp [initLoad] at hsc
    | cons a l =>
      obtain rfl : a = sc := by simpa [initLoad] using hsc
      exact ⟨a, List.mem_cons_self a l, rfl, rfl⟩
  | step op hs ih =>
    exact inv_step _ op ih

/-- EXPORTED is the top of the lifecycle order. -/
theorem statusRank_le_exported (st : Status) :
    statusRank st ≤ statusRank Status.EXPORTED := by
  cases st <;> decide

/-- Rank bound through `markCases`: when the update function preserves slide
ids and can only raise the rank of the members it touches, any collection
member is rank-bounded by the post-state member carrying its slide id. -/
theorem rank_le_of_markCases {cs : List Case} (hnd : (cs.map (fun c => c.slide_id)).Nodup)
    {sl : String} {f : Case → Case} {c cPost : Case}
    (hPost : cPost ∈ markCases cs sl f) (hPre : c ∈ cs)
    (hslide : c.slide_id = cPost.slide_id)
    (hf : ∀ a, (f a).slide_id = a.slide_id)
    (hbound : ∀ a ∈ cs, a.slide_id = sl → statusRank a.status ≤ statusRank (f a).status) :
    statusRank c.status ≤ statusRank cPost.status := by
  obtain ⟨a, ha, hEq⟩ := markCases_mem_inv hPost
  by_cases hm : (a.slide_id == sl) = true
  · rw [if_pos hm] at hEq
    have hsa : c.slide_id = a.slide_id := by rw [hslide, hEq, hf a]
    rw [hEq]
    obtain rfl : c = a := nodup_key hnd hPre ha hsa
    exact hbound _ hPre (by simpa using hm)
  · rw [if_neg hm] at hEq
    have hsa : c.slide_id = a.slide_id := by rw [hslide, hEq]
    rw [hEq]
    obtain rfl : c = a := nodup_key hnd hPre ha hsa
    exact le_refl _

/-- C4: status monotonicity.  From any reachable controller state, no
operation (select, analyze, acknowledge, verify, export, edit, delete, or a
search/filter change) moves any case's status backward along
PENDING, ANALYZED, VERIFIED, EXPORTED: a collection member of the post-state
always ranks at least as high as the pre-state member with its slide id. -/
theorem case_status_monotone (s : DashState) (op : Op) (c cPost : Case)
    (hr : Reachable s) (hPost : cPost ∈ (stepOp s op).cases) (hPre : c ∈ s.cases)
    (hslide : c.slide_id = cPost.slide_id) :
    statusRank c.status ≤ statusRank cPost.status := by
  obtain ⟨hnd, hco⟩ := reachable_inv hr
  cases op with
  | select c2 detail =>
    by_cases hc : c2 ∈ filterCases s.cases s.searchQuery s.statusFilter
    · simp only [stepOp, if_pos hc] at hPost
      obtain rfl : c = cPost := nodup_key hnd hPre hPost hslide
      exact le_refl _
    · simp only [stepOp, if_neg hc] at hPost
      obtain rfl : c = cPost := nodup_key hnd hPre hPost hslide
      exact le_refl _
  | analyze result detail =>
    cases hsel : s.selectedCase with
    | none =>
      simp only [stepOp, hsel] at hPost
      obtain rfl : c = cPost := nodup_key hnd hPre hPost hslide
      exact le_refl _
    | some sc =>
      by_cases hg : (sc.status == Status.PENDING && s.billingAnalysis.isNone) = true
      · have hscp : sc.status = Status.PENDING := by
          rw [Bool.and_eq_true] at hg
          simpa using hg.1
        cases result with
        | none =>
          simp only [stepOp, hsel, hg, if_true] at hPost
          obtain rfl : c = cPost := nodup_key hnd hPre hPost hslide
          exact le_refl _
        | some r =>
          simp only [stepOp, hsel, hg, if_true] at hPost
          obtain ⟨c0, hc0m, hc0s, hc0st⟩ := hco sc hsel
          refine rank_le_of_markCases hnd hPost hPre hslide (fun a => rfl) ?_
          intro a ha has
          obtain rfl : a = c0 := nodup_key hnd ha hc0m (by rw [has, hc0s])
          rw [hc0st, hscp]
          exact (by decide : statusRank Status.PENDING ≤ statusRank Status.ANALYZED)
      · simp only [stepOp, hsel, hg, Bool.false_eq_true, if_false] at hPost
        obtain rfl : c = cPost := nodup_key hnd hPre hPost hslide
        exact le_refl _
  | regionClick r logOk =>
    by_cases hg : (s.selectedCase.isSome && s.billingAnalysis.isSome) = true
    · simp only [stepOp, hg, if_true] at hPost
      obtain rfl : c = cPost := nodup_key hnd hPre hPost hslide
      exact le_refl _
    · simp only [stepOp, hg, Bool.false_eq_true, if_false] at hPost
      obtain rfl : c = cPost := nodup_key hnd hPre hPost hslide
      exact le_refl _
  | verify success detail =>
    cases hsel : s.selectedCase with
    | none =>
      simp only [stepOp, hsel] at hPost
      obtain rfl : c = cPost := nodup_key hnd hPre hPost hslide
      exact le_refl _
    | some sc =>
      cases hba : s.billingAnalysis with
      | none =>
        simp only [stepOp, hsel, hba] at hPost
        obtain rfl : c = cPost := nodup_key hnd hPre hPost hslide
        exact le_refl _
      | some b =>
        by_cases hg : (!isVerifiedGate s && decide (1 ≤ s.clickedRegions.card)) = true
        · have hgate : isVerifiedGate s = false := by
            rw [Bool.and_eq_true] at hg
            simpa using hg.1
          have hsc2 : (sc.status == Status.VERIFIED || sc.status == Status.EXPORTED) = false := by
            unfold isVerifiedGate at hgate
            rw [hsel] at hgate
            exact hgate
          rw [Bool.or_eq_false_iff] at hsc2
          have hnv : sc.status ≠ Status.VERIFIED := by simpa using hsc2.1
          have hne : sc.status ≠ Status.EXPORTED := by simpa using hsc2.2
          cases success with
          | false =>
            simp only [stepOp, hsel, hba, hg, if_true, Bool.false_eq_true, if_false] at hPost
            obtain rfl : c = cPost := nodup_key hnd hPre hPost hslide
            exact le_refl _
          | true =>
            simp only [stepOp, hsel, hba, hg, if_true] at hPost
            obtain ⟨c0, hc0m, hc0s, hc0st⟩ := hco sc hsel
            refine rank_le_of_markCases hnd hPost hPre hslide (fun a => rfl) ?_
            intro a ha has
            obtain rfl : a = c0 := nodup_key hnd ha hc0m (by rw [has, hc0s])
            rw [hc0st]
            cases hx : sc.status with
            | PENDING =>
              exact (by decide : statusRank Status.PENDING ≤ statusRank Status.VERIFIED)
            | ANALYZED =>
              exact (by decide : statusRank Status.ANALYZED ≤ statusRank Status.VERIFIED)
            | VERIFIED => exact absurd hx hnv
            | EXPORTED => exact absurd hx hne
        · simp only [stepOp, hsel, hba, hg, Bool.false_eq_true, if_false] at hPost
          obtain rfl : c = cPost := nodup_key hnd hPre hPost hslide
          exact le_refl _
  | exportPdf detail =>
    cases hsel : s.selectedCase with
    | none =>
      simp only [stepOp, hsel] at hPost
      obtain rfl : c = cPost := nodup_key hnd hPre hPost hslide
      exact le_refl _
    | some sc =>
      by_cases hg : isVerifiedGate s = true
      · simp only [stepOp, hsel, hg, if_true] at hPost
        refine rank_le_of_markCases hnd hPost hPre hslide (fun a => rfl) ?_
        intro a ha has
        exact statusRank_le_exported a.status
      · simp only [stepOp, hsel, hg, Bool.false_eq_true, if_false] at hPost
        obtain rfl : c = cPost := nodup_key hnd hPre hPost hslide
        exact le_refl _
  | editCase target f success detail =>
    by_cases ht : target ∈ filterCases s.cases s.searchQuery s.statusFilter
    · cases success with
      | false =>
        simp only [stepOp, if_pos ht, Bool.false_eq_true, if_false] at hPost
        obtain rfl : c = cPost := nodup_key hnd hPre hPost hslide
        exact le_refl _
      | true =>
        cases hsel : s.selectedCase with
        | none =>
          simp only [stepOp, if_pos ht, if_true, hsel] at hPost
          refine rank_le_of_markCases hnd hPost hPre hslide (fun a => rfl) ?_
          intro a ha has
          exact le_refl _
        | some sc =>
          by_cases hm : (sc.slide_id == target.slide_id) = true
          · simp only [stepOp, if_pos ht, if_true, hsel, hm] at hPost
            refine rank_le_of_markCases hnd hPost hPre hslide (fun a => rfl) ?_
            intro a ha has
            exact le_refl _
          · simp only [stepOp, if_pos ht, if_true, hsel, hm, Bool.false_eq_true,
              if_false] at hPost
            refine rank_le_of_markCases hnd hPost hPre hslide (fun a => rfl) ?_
            intro a ha has
            exact le_refl _
    · simp only [stepOp, if_neg ht] at hPost
      obtain rfl : c = cPost := nodup_key hnd hPre hPost hslide
      exact le_refl _
  | delCase target success detail =>
    by_cases ht : target ∈ filterCases s.cases s.searchQuery s.statusFilter
    · cases success with
      | false =>
        simp only [stepOp, if_pos ht, Bool.false_eq_true, if_false] at hPost
        obtain rfl : c = cPost := nodup_key hnd hPre hPost hslide
        exact le_refl _
      | true =>
        cases hsel : s.selectedCase with
        | none =>
          simp only [stepOp, if_pos ht, if_true, hsel] at hPost
          obtain rfl : c = cPost :=
            nodup_key hnd hPre (List.mem_of_mem_filter hPost) hslide
          exact le_refl _
        | some sc =>
          by_cases hm : (sc.slide_id == target.slide_id) = true
          · simp only [stepOp, if_pos ht, if_true, hsel, hm] at hPost
            obtain rfl : c = cPost :=
              nodup_key hnd hPre (List.mem_of_mem_filter hPost) hslide
            exact le_refl _
          · simp only [stepOp, if_pos ht, if_true, hsel, hm, Bool.false_eq_true,
              if_false] at hPost
            obtain rfl : c = cPost :=
              nodup_key hnd hPre (List.mem_of_mem_filter hPost) hslide
            exact le_refl _
    · simp only [stepOp, if_neg ht] at hPost
      obtain rfl : c = cPost := nodup_key hnd hPre hPost hslide
      exact le_refl _
  | setSearch q =>
    obtain rfl : c = cPost := nodup_key hnd hPre hPost hslide
    exact le_refl _
  | setFilter sf =>
    obtain rfl : c = cPost := nodup_key hnd hPre hPost hslide
    exact le_refl _

/-- C4 (witness): monotonicity evaluated on a concrete reachable state: a
successful analyze moves the single pending case from rank 0 (PENDING) to
rank 1 (ANALYZED). -/
theorem case_status_monotone_witness :
    statusRank demoPending.status ≤
      statusRank ({ demoPending with
        status := Status.ANALYZED,
        suggested_cpt := some demoAnalysis.recommended_cpt,
        recovery_value := demoAnalysis.revenue_delta }).status :=
  case_status_monotone (initLoad [demoPending] none)
    (Op.analyze (some demoAnalysis) none) demoPending
    ({ demoPending with
      status := Status.ANALYZED,
      suggested_cpt := some demoAnalysis.recommended_cpt,
      recovery_value := demoAnalysis.revenue_delta })
    (Reachable.init [demoPending] none (by decide)) (by decide) (by decide) (by decide)

/-! ## C9: request URLs (`lib/api.ts` and the fetch in `loadCaseBillingData`) -/

/-- The module-level base URL of `lib/api.ts` (hardcoded to the production
host; the commented-out environment switch is dead code). -/
def API_BASE_URL : String := "https://patho-production.up.railway.app"

/-- Upper-case hexadecimal digit. -/
def hexDigitChar (n : ℕ) : Char :=
  if n < 10 then Char.ofNat (48 + n) else Char.ofNat (55 + n)

/-- Bytes that JavaScript `encodeURIComponent` leaves unescaped:
`A-Z a-z 0-9 - _ . ! ~ * ' ( )`. -/
def isUnreservedByte (b : ℕ) : Bool :=
  (65 ≤ b && b ≤ 90) || (97 ≤ b && b ≤ 122) || (48 ≤ b && b ≤ 57) ||
  b == 45 || b == 95 || b == 46 || b == 33 || b == 126 || b == 42 ||
  b == 39 || b == 40 || b == 41

/-- UTF-8 encoding of one character as its byte values. -/
def utf8BytesOfChar (c : Char) : List ℕ :=
  let n := c.toNat
  if n < 128 then [n]
  else if n < 2048 then [192 + n / 64, 128 + n % 64]
  else if n < 65536 then [224 + n / 4096, 128 + (n / 64) % 64, 128 + n % 64]
  else [240 + n / 262144, 128 + (n / 4096) % 64, 128 + (n / 64) % 64, 128 + n % 64]

/-- Percent-encode one byte unless it is unreserved. -/
def encByte (b : ℕ) : List Char :=
  if isUnreservedByte b then [Char.ofNat b]
  else ['%', hexDigitChar (b / 16), hexDigitChar (b % 16)]

/-- Embedding of JavaScript `encodeURIComponent`: percent-encode every UTF-8
byte outside the unreserved set. -/
def encodeURIComponent (s : String) : String :=
  String.mk (s.data.flatMap (fun c => (utf8BytesOfChar c).flatMap encByte))

/-- `GET /api/cases` (`getCases` without a status argument). -/
def getCasesUrl : String := API_BASE_URL ++ "/api/cases"

/-- `GET /api/cases/{slideId}` as built by `getCaseDetail` in `lib/api.ts`. -/
def getCaseDetailUrl (slideId : String) : String :=
  API_BASE_URL ++ "/api/cases/" ++ encodeURIComponent slideId

/-- `POST /api/cases` (`createCase`). -/
def createCaseUrl : String := API_BASE_URL ++ "/api/cases"

/-- `DELETE /api/cases/{slideId}` (`deleteCase`). -/
def deleteCaseUrl (slideId : String) : String :=
  API_BASE_URL ++ "/api/cases/" ++ encodeURIComponent slideId

/-- `PUT /api/cases/{slideId}` (`updateCase`). -/
def updateCaseUrl (slideId : String) : String :=
  API_BASE_URL ++ "/api/cases/" ++ encodeURIComponent slideId

/-- `POST /api/cases/{slideId}/upload-image` (`uploadSlideImage`). -/
def uploadSlideImageUrl (slideId : String) : String :=
  API_BASE_URL ++ "/api/cases/" ++ encodeURIComponent slideId ++ "/upload-image"

/-- `POST /api/analyze` (`analyzeSlide`). -/
def analyzeUrl : String := API_BASE_URL ++ "/api/analyze"

/-- `POST /api/region-click` (`logRegionClick`). -/
def regionClickUrl : String := API_BASE_URL ++ "/api/region-click"

/-- `POST /api/document` (`documentVerification`). -/
def documentUrl : String := API_BASE_URL ++ "/api/document"

/-- `GET /api/export-pdf?slide_id=...` (`downloadAuditPDF`). -/
def exportPdfUrl (slideId : String) : String :=
  API_BASE_URL ++ "/api/export-pdf?slide_id=" ++ encodeURIComponent slideId

/-- `GET /api/performance-metrics` (`getRevenueSummary`). -/
def performanceMetricsUrl : String := API_BASE_URL ++ "/api/performance-metrics"

/-- The fetch issued by `loadCaseBillingData` in `app/page.tsx` (line 165):
the case-detail request of the controller itself, with its own hardcoded
host. -/
def billingDetailFetchUrl (slideId : String) : String :=
  "http://localhost:8000/api/cases/" ++ encodeURIComponent slideId

/-- A character list is an initial segment of itself followed by anything. -/
theorem strLeads_self_append : ∀ (xs ys : List Char), strLeadsAux xs (xs ++ ys) = true := by
  intro xs ys
  induction xs with
  | nil => rfl
  | cons c cs ih => simp [strLeadsAux, ih]

/-- A string starts with itself when anything is appended. -/
theorem strStarts_append (a b : String) : strStarts (a ++ b) a = true := by
  unfold strStarts
  have h : (a ++ b).data = a.data ++ b.data := rfl
  rw [h]
  exact strLeads_self_append a.data b.data

/-- C9: every request URL built in `lib/api.ts` extends the single module
base URL, but the case-detail fetch issued by the controller itself
(`loadCaseBillingData`) targets the hardcoded host `http://localhost:8000`,
which does not extend that base URL: the claim that all controller calls
share one configured base URL fails on this call. -/
theorem api_base_url_divergence :
    (∀ slideId : String,
      strStarts (getCaseDetailUrl slideId) API_BASE_URL = true ∧
      strStarts (deleteCaseUrl slideId) API_BASE_URL = true ∧
      strStarts (updateCaseUrl slideId) API_BASE_URL = true ∧
      strStarts (uploadSlideImageUrl slideId) API_BASE_URL = true ∧
      strStarts (exportPdfUrl slideId) API_BASE_URL = true) ∧
    strStarts getCasesUrl API_BASE_URL = true ∧
    strStarts createCaseUrl API_BASE_URL = true ∧
    strStarts analyzeUrl API_BASE_URL = true ∧
    strStarts regionClickUrl API_BASE_URL = true ∧
    strStarts documentUrl API_BASE_URL = true ∧
    strStarts performanceMetricsUrl API_BASE_URL = true ∧
    billingDetailFetchUrl "WSI-2024-1847" =
      "http://localhost:8000/api/cases/WSI-2024-1847" ∧
    strStarts (billingDetailFetchUrl "WSI-2024-1847") API_BASE_URL = false := by
  refine ⟨fun slideId => ⟨?_, ?_, ?_, ?_, ?_⟩, ?_, ?_, ?_, ?_, ?_, ?_, ?_, ?_⟩
  · exact strStarts_append API_BASE_URL _
  · exact strStarts_append API_BASE_URL _
  · exact strStarts_append API_BASE_URL _
  · exact strStarts_append API_BASE_URL _
  · exact strStarts_append API_BASE_URL _
  · exact strStarts_append API_BASE_URL _
  · exact strStarts_append API_BASE_URL _
  · exact strStarts_append API_BASE_URL _
  · exact strStarts_append API_BASE_URL _
  · exact strStarts_append API_BASE_URL _
  · exact strStarts_append API_BASE_URL _
  · decide
  · decide

/-! ## C10: the verify submission is positional -/

/-- Claim-side helper: pick the entries of a list whose position, counted
from `k`, is in the acknowledged set. -/
def pick1Based (clicked : Finset ℕ) : ℕ → List String → List String
  | _, [] => []
  | k, a :: rest =>
    if k ∈ clicked then a :: pick1Based clicked (k + 1) rest
    else pick1Based clicked (k + 1) rest

/-- Claim-side description of the submitted indicator list: exactly the
indicators whose 1-based position in the indicator list is a member of the
acknowledged set. -/
def indicatorsAt1BasedPositions (ind : List String) (clicked : Finset ℕ) : List String :=
  pick1Based clicked 1 ind

/-- The `DocumentRequest` built by `handleVerify` in `app/page.tsx`: the
submitted `complexity_indicators_clicked` filters the indicator list by
testing the 1-based INDEX of each indicator against the acknowledged set of
region identifiers. -/
def verifyRequest (sc : Case) (b : BillingAnalysis) (clicked : Finset ℕ) : DocumentRequest :=
  { slide_id := sc.slide_id,
    pathologist_name := "Dr. [Current User]",
    verified_cpt_codes := [b.recommended_cpt, b.cpt_codes.ai_assisted],
    complexity_indicators_clicked :=
      ((b.complexity_indicators.enum.filter
        (fun p => decide ((p.1 + 1) ∈ clicked))).map Prod.snd),
    billing_data := some b }

/-- The submission `handleVerify` would make from a controller state (it
requires a selected case and an analysis result). -/
def verifySubmission (s : DashState) : Option DocumentRequest :=
  match s.selectedCase, s.billingAnalysis with
  | some sc, some b => some (verifyRequest sc b s.clickedRegions)
  | _, _ => none

theorem pick_eq_enumFrom (clicked : Finset ℕ) :
    ∀ (l : List String) (k : ℕ),
      ((l.enumFrom k).filter (fun p => decide ((p.1 + 1) ∈ clicked))).map Prod.snd =
        pick1Based clicked (k + 1) l := by
  intro l
  induction l with
  | nil => intro k; rfl
  | cons a rest ih =>
    intro k
    show (((k, a) :: rest.enumFrom (k + 1)).filter
        (fun p => decide ((p.1 + 1) ∈ clicked))).map Prod.snd = _
    by_cases h : (k + 1) ∈ clicked
    · simp only [List.filter_cons, decide_eq_true_eq]
      rw [if_pos (by simpa using h)]
      simp only [List.map_cons]
      rw [ih (k + 1)]
      simp [pick1Based, h]
    · simp only [List.filter_cons, decide_eq_true_eq]
      rw [if_neg (by simpa using h)]
      rw [ih (k + 1)]
      simp [pick1Based, h]

/-- Acknowledged-region fixture for C10: regions with identifiers 10 and 20
(not 1..n). -/
def c10Region10 : AnnotatedRegion := { demoRegion3 with id := 10 }

/-- Second C10 region, identifier 20. -/
def c10Region20 : AnnotatedRegion := { demoRegion3 with id := 20 }

/-- Detail response whose analysis carries two indicators and the two regions
with identifiers 10 and 20. -/
def c10Detail : DetailResp :=
  { demoDetail with annotated_regions := some [c10Region10, c10Region20] }

/-- Controller state after loading the analyzed demo case with `c10Detail`
and acknowledging both regions (identifiers 10 and 20). -/
def c10State : DashState :=
  stepOp (stepOp (initLoad [demoCase1] (some c10Detail))
      (Op.regionClick c10Region10 true))
    (Op.regionClick c10Region20 true)

/-- C10: the submitted `complexity_indicators_clicked` contains exactly the
indicators whose 1-based position in the indicator list belongs to the
acknowledged set of region identifiers (a positional test, not a property of
the acknowledged regions); consequently, in the concrete state `c10State`
where both regions (identifiers 10 and 20) are acknowledged but the two
indicators sit at positions 1 and 2, the submitted list is empty even though
the acknowledged set is not. -/
theorem verify_submission_positional :
    (∀ (sc : Case) (b : BillingAnalysis) (clicked : Finset ℕ),
      (verifyRequest sc b clicked).complexity_indicators_clicked =
        indicatorsAt1BasedPositions b.complexity_indicators clicked) ∧
    c10State.clickedRegions ≠ (∅ : Finset ℕ) ∧
    Option.map (fun r => r.complexity_indicators_clicked) (verifySubmission c10State) =
      some [] ∧
    (verifySubmission c10State).isSome = true := by
  refine ⟨fun sc b clicked => ?_, by decide, by decide, by decide⟩
  show ((b.complexity_indicators.enumFrom 0).filter
      (fun p => decide ((p.1 + 1) ∈ clicked))).map Prod.snd =
    indicatorsAt1BasedPositions b.complexity_indicators clicked
  rw [pick_eq_enumFrom clicked b.complexity_indicators 0]
  rfl
